import Mathlib

/-!
Verification development for the fragment-pipeline coordinator of the
Live-Translation backend.  The definitions below are shallow embeddings of
the JavaScript sources under `src/backend/src` (and the unnamed integrator
module `src/unnamed/part_006`); each definition's doc comment names the
source function it embeds.  The filesystem is modelled explicitly: a file
is identified by a directory string and a file-name string, `fs.access`
mirrors `fs.access` (existence), `fs.readdir?` mirrors `fs.readdir` (with
`none` for a missing directory, i.e. the rejected promise), and writes and
unlinks are atomic single steps, matching the promise-based API surface the
code uses.
-/

namespace LiveTrans

/-- Model of the filesystem shared by all pipeline stages.  `contents d n`
is the content of file `n` in directory `d` (`none` when absent);
`listing d` is the directory listing (`none` when the directory itself is
missing, which makes `readdir` reject). -/
structure FS where
  contents : String → String → Option String
  listing : String → Option (List String)

/-- Mirrors a successful `fs.access(path)` check: the file exists. -/
def FS.access (fs : FS) (d n : String) : Bool :=
  (fs.contents d n).isSome

/-- Mirrors `fs.readFile`: the content of the file, `none` when missing. -/
def FS.fileAt (fs : FS) (d n : String) : Option String :=
  fs.contents d n

/-- Mirrors `fs.readdir(d)`: `none` models the rejected promise when the
directory does not exist. -/
def FS.readdir? (fs : FS) (d : String) : Option (List String) :=
  fs.listing d

/-- Mirrors `fs.writeFile(d/n, c)` (atomic in this model); the new name is
also visible to later `readdir` calls. -/
def FS.writeFile (fs : FS) (d n c : String) : FS where
  contents := fun d' n' => if d' = d ∧ n' = n then some c else fs.contents d' n'
  listing := fun d' =>
    if d' = d then some (n :: ((fs.listing d').getD []).filter (fun m => m ≠ n))
    else fs.listing d'

/-- Mirrors `fs.unlink(d/n)`. -/
def FS.unlink (fs : FS) (d n : String) : FS where
  contents := fun d' n' => if d' = d ∧ n' = n then none else fs.contents d' n'
  listing := fun d' =>
    if d' = d then (fs.listing d').map (fun l => l.filter (fun m => m ≠ n))
    else fs.listing d'

/-- The empty filesystem (no files, no directories). -/
def emptyFS : FS where
  contents := fun _ _ => none
  listing := fun _ => none

/-! ## Fragment file names (`fragment-<N>.<ext>` convention) -/

/-- The `fragment-<N>.wav` file name used by the synthesis stage. -/
def wavName (n : Nat) : String := "fragment-" ++ toString n ++ ".wav"

/-- The `fragment-<N>.mp3` file name produced by WAV→MP3 conversion. -/
def mp3Name (n : Nat) : String := "fragment-" ++ toString n ++ ".mp3"

/-- The `fragment-<N>.json` file name used by transcription/translation. -/
def jsonName (n : Nat) : String := "fragment-" ++ toString n ++ ".json"

/-- `FinalTranslatedAudio/<Language>` directory (audioSyncManager.js line 13). -/
def audioDir (lang : String) : String := "FinalTranslatedAudio/" ++ lang

/-- `FinalTranslatedText/<Language>` directory (audioSyncManager.js line 14). -/
def translationsDir (lang : String) : String := "FinalTranslatedText/" ++ lang

/-! ## Filename parsing (the `fragment-(\d+)` regexes)

`parseFragment ext name` models `name.match(/fragment-(\d+)<ext>$/)` with
`parseInt` applied to the captured digits: a match requires the name to end
in `"fragment-" ++ digits ++ ext` and the leftmost such occurrence is
taken, exactly as the JS regex engine does.  `parseFragLoose` models the
unanchored regex `/fragment-(\d+)\.wav/` used by the extraction-status
endpoint (server.js lines 414-415). -/

/-- Decimal value of a digit string (`parseInt` on captured `\d+`). -/
def digitsToNat (l : List Char) : Nat :=
  l.foldl (fun a c => a * 10 + (c.toNat - '0'.toNat)) 0

/-- Try the end-anchored pattern `fragment-(\d+)<ext>$` at the start of `l`,
where the whole rest of the name must be consumed. -/
def matchFragEndAt (ext : List Char) (l : List Char) : Option Nat :=
  if l.take 9 = "fragment-".toList then
    let rest := l.drop 9
    let ds := rest.take (rest.length - ext.length)
    if ds ≠ [] ∧ ds.all Char.isDigit ∧ rest.drop (rest.length - ext.length) = ext then
      some (digitsToNat ds)
    else none
  else none

/-- Scan for the leftmost end-anchored match. -/
def findFragEnd (ext : List Char) : List Char → Option Nat
  | [] => none
  | c :: t =>
    match matchFragEndAt ext (c :: t) with
    | some n => some n
    | none => findFragEnd ext t

/-- `name.match(/fragment-(\d+)<ext>$/)` with `parseInt` on the capture. -/
def parseFragment (ext : String) (name : String) : Option Nat :=
  findFragEnd ext.toList name.toList

/-- Try the unanchored pattern `fragment-(\d+)<ext>` at the start of `l`:
greedy digits followed immediately by `ext`, with arbitrary trailing text. -/
def matchFragLooseAt (ext : List Char) (l : List Char) : Option Nat :=
  if l.take 9 = "fragment-".toList then
    let rest := l.drop 9
    let ds := rest.takeWhile Char.isDigit
    if ds ≠ [] ∧ (rest.drop ds.length).take ext.length = ext then
      some (digitsToNat ds)
    else none
  else none

/-- Scan for the leftmost unanchored match. -/
def findFragLoose (ext : List Char) : List Char → Option Nat
  | [] => none
  | c :: t =>
    match matchFragLooseAt ext (c :: t) with
    | some n => some n
    | none => findFragLoose ext t

/-- `name.match(/fragment-(\d+)<ext>/)` (no `$` anchor) with `parseInt`. -/
def parseFragLoose (ext : String) (name : String) : Option Nat :=
  findFragLoose ext.toList name.toList

/-- `name.endsWith(suffix)` (the JS string method), on character lists. -/
def strEndsWith (s suf : String) : Bool :=
  let l := s.toList
  let p := suf.toList
  l.drop (l.length - p.length) == p

/-! ## AudioSyncManager (src/backend/src/audioSyncManager.js)

The Sync Coordinator.  External TTS calls are driven by an attempt oracle
`att : Nat → Bool`: the `k`-th Eleven Labs request succeeds iff `att k`.
`pos` threads the index of the next attempt through the computation.  The
local `ffmpeg` conversion is modelled as deterministic (`mp3Of`), and a
successful TTS response always carries at least 100 bytes of audio
(`ttsAudio`), so `saveAudioFile`'s size guard passes on the success path. -/

/-- The active language set of the sync manager (audioSyncManager.js lines 17-34). -/
def languages : List String := ["Hindi", "Sanskrit", "Marathi"]

/-- The translation-artifact check inside `hasTranslations` (lines 141-152
and 157-168 run the identical per-language `fs.access` loop). -/
def translationsExist (fs : FS) (n : Nat) : Bool :=
  languages.all (fun lang => fs.access (translationsDir lang) (jsonName n))

/-- The `maxFragment` scan of `hasTranslations` (lines 119-134): the highest
`fragment-(\d+).wav$` index found in any language's audio directory, `-1`
when none (missing directories are skipped). -/
def maxWavFragment (fs : FS) : Int :=
  languages.foldl
    (fun acc lang =>
      match fs.readdir? (audioDir lang) with
      | none => acc
      | some files =>
        files.foldl
          (fun a f =>
            match parseFragment ".wav" f with
            | some num => max a (num : Int)
            | none => a) acc)
    (-1)

/-- `AudioSyncManager.hasTranslations` (lines 116-174): both the
`maxFragment > fragmentNum` branch and the normal branch perform the same
all-languages translation-file check. -/
def hasTranslations (fs : FS) (n : Nat) : Bool :=
  if maxWavFragment fs > (n : Int) then translationsExist fs n
  else translationsExist fs n

/-- A successful Eleven Labs TTS response body for the given text: opaque
audio bytes, at least 100 of them (`generateAudio`, audioHandler.js 171-206). -/
def ttsAudio (text : String) : String :=
  String.mk (List.replicate 100 'a') ++ text

/-- Deterministic model of the `ffmpeg` WAV→MP3 transcode
(`AudioSyncManager.convertToMp3`, lines 179-197). -/
def mp3Of (wav : String) : String := "mp3:" ++ wav

/-- `withRetry` (audioHandler.js lines 80-91): up to `MAX_RETRIES = 3`
attempts, rethrowing after the third failure.  Returns
`(succeeded, next attempt position, billable API calls made)`. -/
def withRetryRun (att : Nat → Bool) (pos : Nat) : Bool × Nat × Nat :=
  if att pos then (true, pos + 1, 1)
  else if att (pos + 1) then (true, pos + 2, 2)
  else if att (pos + 2) then (true, pos + 3, 3)
  else (false, pos + 3, 3)

/-- `saveAudioFile` (audioHandler.js lines 260-284): rejects a buffer under
100 bytes, otherwise writes it to the output path and verifies the written
size (always consistent in this atomic-write model).  Returns the new
filesystem and the success flag. -/
def saveAudioFile (fs : FS) (buf : String) (d n : String) : FS × Bool :=
  if buf.length < 100 then (fs, false)
  else (fs.writeFile d n buf, true)

/-- One language's body of `AudioSyncManager.processFragment` (lines
233-284): loop until this language's fragment is done.  Check MP3, then
WAV (convert and delete the WAV), else call the TTS API through
`withRetry`, save the WAV, convert it to MP3 and delete the WAV; any error
waits 5 s and retries the same fragment.  `fuel` bounds the number of loop
iterations modelled (`none` = still retrying); the result carries the
filesystem, the next oracle position and the number of billable API calls. -/
def processLang (att : Nat → Bool) (lang : String) (n : Nat) (text : String) :
    Nat → FS → Nat → Option (FS × Nat × Nat)
  | 0, _, _ => none
  | fuel + 1, fs, pos =>
    if fs.access (audioDir lang) (mp3Name n) then
      some (fs, pos, 0)
    else if fs.access (audioDir lang) (wavName n) then
      let wavC := (fs.fileAt (audioDir lang) (wavName n)).getD ""
      some (((fs.writeFile (audioDir lang) (mp3Name n) (mp3Of wavC)).unlink
        (audioDir lang) (wavName n)), pos, 0)
    else
      match withRetryRun att pos with
      | (true, pos', c) =>
        let s := saveAudioFile fs (ttsAudio text) (audioDir lang) (wavName n)
        if s.2 then
          let wavC := (s.1.fileAt (audioDir lang) (wavName n)).getD ""
          some (((s.1.writeFile (audioDir lang) (mp3Name n) (mp3Of wavC)).unlink
            (audioDir lang) (wavName n)), pos', c)
        else
          (processLang att lang n text fuel s.1 pos').map
            (fun r => (r.1, r.2.1, r.2.2 + c))
      | (false, pos', c) =>
        (processLang att lang n text fuel fs pos').map
          (fun r => (r.1, r.2.1, r.2.2 + c))

/-- The translation-reading prologue of `processFragment` (lines 205-230):
read every language's translation file, failing as soon as one is missing. -/
def readTranslations (fs : FS) (n : Nat) : Option (List (String × String)) :=
  languages.mapM
    (fun lang => (fs.fileAt (translationsDir lang) (jsonName n)).map
      (fun c => (lang, c)))

/-- The strictly-sequential per-language loop of `processFragment` (lines
232-284): one language fully completes before the next starts. -/
def processLangs (att : Nat → Bool) (n : Nat) (texts : String → String)
    (fuel : Nat) : List String → FS → Nat → Option (FS × Nat × Nat)
  | [], fs, pos => some (fs, pos, 0)
  | lang :: rest, fs, pos =>
    match processLang att lang n (texts lang) fuel fs pos with
    | none => none
    | some (fs', pos', c) =>
      (processLangs att n texts fuel rest fs' pos').map
        (fun r => (r.1, r.2.1, r.2.2 + c))

/-- `AudioSyncManager.processFragment` (lines 202-287): read all
translations (returning `false` if any is missing), then process every
language in sequence.  Result: `(filesystem, success, position, calls)`. -/
def processFragment (att : Nat → Bool) (fuel : Nat) (fs : FS) (n : Nat)
    (pos : Nat) : Option (FS × Bool × Nat × Nat) :=
  match readTranslations fs n with
  | none => some (fs, false, pos, 0)
  | some texts =>
    match processLangs att n (fun lang => ((texts.lookup lang).getD "")) fuel
        languages fs pos with
    | none => none
    | some (fs', pos', c) => some (fs', true, pos', c)

/-- One iteration of the `AudioSyncManager.start` loop (lines 302-327): if
the translations for `idx` are not all present, sleep 5 s and recheck
(state unchanged); otherwise attempt `processFragment idx` — on success
advance to `idx + 1`, on failure stay at `idx` (retry after 2 s).  The last
component records which fragment indices processing was begun for during
the iteration. -/
def syncStep (att : Nat → Bool) (fuel : Nat) (fs : FS) (idx : Nat)
    (pos : Nat) : Option (FS × Nat × Nat × List Nat) :=
  if hasTranslations fs idx then
    match processFragment att fuel fs idx pos with
    | none => none
    | some (fs', true, pos', _) => some (fs', idx + 1, pos', [idx])
    | some (fs', false, pos', _) => some (fs', idx, pos', [idx])
  else
    some (fs, idx, pos, [])

/-! ## Write-discipline traces (Claim C2)

The observable filesystem-operation sequences performed by the stage
output writers, for checking the write-temp-then-rename /
write-then-verify-size discipline. -/

/-- One observable filesystem operation. -/
inductive FsOp where
  | write (dir name content : String)
  | statCheck (dir name : String) (expected : Nat)
  | rename (dir name dir' name' : String)
  | unlinkOp (dir name : String)
deriving DecidableEq

/-- The filesystem operations of `saveAudioFile` (audioHandler.js lines
260-284): direct write to the output path followed by a `stat` size
verification; nothing at all when the buffer is under 100 bytes. -/
def saveAudioFileOps (d n buf : String) : List FsOp :=
  if buf.length < 100 then []
  else [FsOp.write d n buf, FsOp.statCheck d n buf.length]

/-- The result-saving filesystem operations of `transcribeAudioFragment`
(transcriptionHandler.js lines 92-108): a `.test` permission probe, then
one direct `fs.writeFile` of the JSON results to the final output path —
no temporary name, no rename, no size verification. -/
def transcribeSaveOps (outDir : String) (n : Nat) (json : String) : List FsOp :=
  [FsOp.write outDir ".test" "test", FsOp.unlinkOp outDir ".test",
   FsOp.write outDir (jsonName n) json]

/-- Whether the trace ever writes directly to the final name `(d, n)`. -/
def writesVia (ops : List FsOp) (d n : String) : Bool :=
  ops.any fun op =>
    match op with
    | FsOp.write d' n' _ => d' == d && n' == n
    | _ => false

/-- Whether the trace renames some other file into the final name `(d, n)`. -/
def renamedInto (ops : List FsOp) (d n : String) : Bool :=
  ops.any fun op =>
    match op with
    | FsOp.rename _ _ d' n' => d' == d && n' == n
    | _ => false

/-- The write-temp-then-rename discipline for final name `(d, n)`: the
content arrives by rename and the final name is never written directly. -/
def tempThenRename (ops : List FsOp) (d n : String) : Bool :=
  renamedInto ops d n && !(writesVia ops d n)

/-- The write-then-verify-size discipline for final name `(d, n)`: every
direct write to the final name is followed by a size verification of it. -/
def sizeVerified : List FsOp → String → String → Bool
  | [], _, _ => true
  | FsOp.write d' n' _ :: rest, d, n =>
    (if d' == d && n' == n then
      rest.any fun op =>
        match op with
        | FsOp.statCheck d'' n'' _ => d'' == d && n'' == n
        | _ => false
    else true) && sizeVerified rest d n
  | _ :: rest, d, n => sizeVerified rest d n

/-! ## Fragment discovery and listing (Claim C5)

`getAllTranslationFragments` is from src/unnamed/part_006 lines 161-178;
`extractionWavListing` is the `.wav` filter-and-sort of the
extraction-status endpoint (server.js lines 412-417). -/

/-- JS `Map.prototype.set`: overwrite the value of an existing key in
place, otherwise append the new entry. -/
def mapSet (m : List (Nat × String)) (k : Nat) (v : String) :
    List (Nat × String) :=
  if m.any (fun e => e.1 == k) then
    m.map (fun e => if e.1 == k then (k, v) else e)
  else m ++ [(k, v)]

/-- `getAllTranslationFragments` (part_006 lines 161-178): collect
`fragment-(\d+).json$` matches of a directory listing into a Map keyed by
the parsed index, silently skipping non-matching names. -/
def getAllTranslationFragments (files : List String) : List (Nat × String) :=
  files.foldl
    (fun m file =>
      match parseFragment ".json" file with
      | some n => mapSet m n file
      | none => m) []

/-- The key set (in insertion order) of a fragment Map. -/
def fragKeys (m : List (Nat × String)) : List Nat := m.map (fun e => e.1)

/-- Sort key of the extraction-status comparator: `parseInt` of the
unanchored `fragment-(\d+)\.wav` capture (server.js lines 414-415). -/
def wavSortKey (f : String) : Nat := (parseFragLoose ".wav" f).getD 0

/-- Insertion by `wavSortKey` (order model for the numeric sort). -/
def insertByKey (x : String) : List String → List String
  | [] => [x]
  | y :: t => if wavSortKey x ≤ wavSortKey y then x :: y :: t
              else y :: insertByKey x t

/-- Numeric sort of `.wav` fragment names by parsed index. -/
def sortWav (l : List String) : List String := l.foldr insertByKey []

/-- The extraction-status listing (server.js lines 412-417): keep `.wav`
names, then sort with a comparator that dereferences `match[1]`.  With two
or more elements the sort evaluates the comparator on every element, so a
`.wav` name with no `fragment-(\d+).wav` occurrence makes the comparator
throw a TypeError (modelled as `none`); with at most one element the
comparator is never called. -/
def extractionWavListing (files : List String) : Option (List String) :=
  let wav := files.filter (fun f => strEndsWith f ".wav")
  if wav.length ≤ 1 then some wav
  else if wav.all (fun f => (parseFragLoose ".wav" f).isSome) then
    some (sortWav wav)
  else none

/-! ## Byte-range audio serving (Claims C6 and C10)

`GET /api/audio/:videoId/:language/:filename` (server.js lines 619-699). -/

/-- The `fs.stat` result the endpoint inspects. -/
structure StatInfo where
  isFile : Bool
  size : Nat
deriving DecidableEq

/-- The observable response: HTTP status, `Content-Range` header,
`Content-Length` header value, and the number of body bytes streamed. -/
structure AudioResponse where
  status : Nat
  contentRange : Option String
  contentLength : Int
  bodyLen : Nat
deriving DecidableEq

/-- The audio file-serving endpoint (server.js lines 619-699).  `file` is
`none` when `fs.access` rejects (missing file); `range` is the parsed
`Range: bytes=S-E` header, with `none` for the `E` part when absent.  A
`createReadStream {start, end}` on a file of `size` bytes streams bytes
`start .. min end (size-1)`. -/
def serveAudio (file : Option StatInfo) (range : Option (Int × Option Int)) :
    AudioResponse :=
  match file with
  | none => ⟨404, none, 0, 0⟩
  | some st =>
    if !st.isFile || st.size == 0 then ⟨404, none, 0, 0⟩
    else
      match range with
      | none => ⟨200, none, (st.size : Int), st.size⟩
      | some (s, e?) =>
        let e : Int := match e? with
          | some e => e
          | none => (st.size : Int) - 1
        ⟨206,
         some ("bytes " ++ toString s ++ "-" ++ toString e ++ "/" ++
           toString st.size),
         e - s + 1,
         (min e ((st.size : Int) - 1) - s + 1).toNat⟩

/-! ## Status reporting (Claims C7 and C8) -/

/-- The extraction-status response body (server.js lines 365-448). -/
structure ExtractionResponse where
  status : String
  chunkCount : Nat
  availableFiles : List String
  httpStatus : Nat
deriving DecidableEq

/-- The `not_started` fallback response (server.js lines 433-439). -/
def notStartedResponse : ExtractionResponse :=
  ⟨"not_started", 0, [], 200⟩

/-- The generated-status branch (server.js lines 412-429); a comparator
TypeError in the listing is caught by the surrounding try and falls back to
the `not_started` response. -/
def generatedExtraction (finalFiles : List String) : ExtractionResponse :=
  match extractionWavListing finalFiles with
  | some wavFiles =>
    ⟨if wavFiles.length > 0 then "in_progress" else "starting",
     wavFiles.length, wavFiles, 200⟩
  | none => notStartedResponse

/-- `GET /api/extraction-status/:savedLocation` (server.js lines 365-448).
`finalDir` and `preDir` are the listings of `FinalExtracted` and
`PreProcessing` (`none` when missing); `statusJson` is the parsed
`status.json` content (its `status` and `progress` fields, abstracted as a
status string and a count) when the file parses, `none` otherwise (a parse
failure falls through to the generated status, lines 397-409).  A missing
directory yields the `not_started` snapshot, never an error response. -/
def extractionStatus (finalDir preDir : Option (List String))
    (statusJson : Option (String × Nat)) : ExtractionResponse :=
  match finalDir, preDir with
  | some finalFiles, some preFiles =>
    if preFiles.contains "status.json" then
      match statusJson with
      | some st =>
        ⟨st.1, st.2, finalFiles.filter (fun f => strEndsWith f ".wav"), 200⟩
      | none => generatedExtraction finalFiles
    else generatedExtraction finalFiles
  | _, _ => notStartedResponse

/-- Per-language `{ filesCount, progress }` entry of the status reporters. -/
structure LangStat where
  filesCount : Nat
  progress : ℚ
deriving DecidableEq

/-- The translation status body (translationIntegrator.js lines 186-234). -/
structure TranslationStatusResponse where
  totalTranscriptions : Nat
  translatedFiles : Nat
  overallProgress : ℚ
  isComplete : Bool
  errorMsg : Option String
deriving DecidableEq

/-- `getTranslationStatus` (translationIntegrator.js lines 186-234): every
`readdir` is `.catch(() => [])`-protected, so missing directories count as
empty and the error branch is unreachable; `errorMsg` is always `none`. -/
def getTranslationStatus (transcriptionsDir : Option (List String))
    (langDir : String → Option (List String)) : TranslationStatusResponse :=
  let transcriptionFiles :=
    (transcriptionsDir.getD []).filter (fun f => strEndsWith f ".json")
  let translatedFiles :=
    ((langDir "English").getD []).filter (fun f => strEndsWith f ".json")
  ⟨transcriptionFiles.length,
   translatedFiles.length,
   if transcriptionFiles.length = 0 then 0
   else (translatedFiles.length : ℚ) / transcriptionFiles.length * 100,
   decide (transcriptionFiles.length > 0) &&
     (translatedFiles.length == transcriptionFiles.length),
   none⟩

/-- Transcription count used as the reference of the translation reporter
(translationIntegrator.js lines 193-195). -/
def translationReferenceCount (transcriptionsDir : Option (List String)) : Nat :=
  ((transcriptionsDir.getD []).filter (fun f => strEndsWith f ".json")).length

/-- One language's translated-file count (translationIntegrator.js
lines 206-209). -/
def doneTranslationCount (langDir : String → Option (List String))
    (lang : String) : Nat :=
  (((langDir lang).getD []).filter (fun f => strEndsWith f ".json")).length

/-- The per-language entry of `getTranslationStatus`'s `languageStatus`
loop (translationIntegrator.js lines 203-215). -/
def translationLangStatus (transcriptionsDir : Option (List String))
    (langDir : String → Option (List String)) (lang : String) : LangStat :=
  let transcriptionFiles :=
    (transcriptionsDir.getD []).filter (fun f => strEndsWith f ".json")
  let langFiles := ((langDir lang).getD []).filter (fun f => strEndsWith f ".json")
  ⟨langFiles.length,
   if transcriptionFiles.length = 0 then 0
   else (langFiles.length : ℚ) / transcriptionFiles.length * 100⟩

/-- English-translation count used as the reference of the audio reporter
(part_006 lines 267-269). -/
def audioReferenceCount (englishTransDir : Option (List String)) : Nat :=
  ((englishTransDir.getD []).filter (fun f => strEndsWith f ".json")).length

/-- One language's synthesized-audio count (part_006 lines 275-277). -/
def doneAudioCount (audioDirListing : String → Option (List String))
    (lang : String) : Nat :=
  (((audioDirListing lang).getD []).filter (fun f => strEndsWith f ".wav")).length

/-- The per-language entry of `getAudioStatus`'s `languageStatus` loop
(part_006 lines 271-283). -/
def audioLangStatus (englishTransDir : Option (List String))
    (audioDirListing : String → Option (List String)) (lang : String) :
    LangStat :=
  let translationFiles :=
    (englishTransDir.getD []).filter (fun f => strEndsWith f ".json")
  let audioFiles :=
    ((audioDirListing lang).getD []).filter (fun f => strEndsWith f ".wav")
  ⟨audioFiles.length,
   if translationFiles.length = 0 then 0
   else (audioFiles.length : ℚ) / translationFiles.length * 100⟩

/-! ## Sync-manager registry (Claim C9)

`startAudioSyncManager` and the `audioSyncManagers` map (server.js lines
138-153): single-threaded JS, so the has/set/start sequence is atomic. -/

/-- Server-side coordinator state: the keys of the `audioSyncManagers` map
and, per video, the number of running `start()` processing loops. -/
structure ServerState where
  registered : List String
  running : String → Nat

/-- The initial server state: no managers registered, no loops running. -/
def initialServerState : ServerState :=
  ⟨[], fun _ => 0⟩

/-- `startAudioSyncManager` (server.js lines 142-153): a duplicate start
request for a registered video is a no-op; otherwise the new manager is
registered and its processing loop started (a fresh manager's
`isProcessing` guard, audioSyncManager.js lines 293-298, is `false`, so
the loop does begin). -/
def startAudioSyncManager (s : ServerState) (vid : String) : ServerState :=
  if s.registered.contains vid then s
  else
    ⟨vid :: s.registered,
     fun v => if v = vid then s.running v + 1 else s.running v⟩

/-! ## Basic lemmas about the filesystem model -/

theorem FS.access_writeFile (fs : FS) (d n c d' n' : String) :
    (fs.writeFile d n c).access d' n' =
      if d' = d ∧ n' = n then true else fs.access d' n' := by
  simp only [FS.access, FS.writeFile]
  split <;> simp

theorem FS.access_unlink (fs : FS) (d n d' n' : String) :
    (fs.unlink d n).access d' n' =
      if d' = d ∧ n' = n then false else fs.access d' n' := by
  simp only [FS.access, FS.unlink]
  split <;> simp

theorem mp3Name_ne_wavName (m n : Nat) : mp3Name m ≠ wavName n := by
  intro h
  have h2 := congrArg (fun s => s.toList.getLast?) h
  simp [mp3Name, wavName] at h2
  rw [← List.cons_append, ← List.cons_append] at h2
  rw [List.getLast?_append_of_ne_nil _ (by simp),
      List.getLast?_append_of_ne_nil _ (by simp)] at h2
  simp at h2

theorem ttsAudio_not_small (text : String) : ¬ (ttsAudio text).length < 100 := by
  have h : (ttsAudio text).length = 100 + text.length := by
    simp only [ttsAudio, String.length_append]
    norm_num
  omega

theorem hasTranslations_eq (fs : FS) (n : Nat) :
    hasTranslations fs n = translationsExist fs n := by
  simp [hasTranslations]

/-! ## Lemmas about the per-language synthesis loop -/

/-- Any terminating run of the per-language loop leaves the MP3 output of
its own (language, index) pair on disk. -/
theorem processLang_mp3 (att : Nat → Bool) (lang : String) (n : Nat)
    (text : String) :
    ∀ (fuel : Nat) (fs : FS) (pos : Nat) (fs' : FS) (pos' c : Nat),
      processLang att lang n text fuel fs pos = some (fs', pos', c) →
      fs'.access (audioDir lang) (mp3Name n) = true := by
  intro fuel
  induction fuel with
  | zero =>
    intro fs pos fs' pos' c h
    simp [processLang] at h
  | succ fuel ih =>
    intro fs pos fs' pos' c h
    rw [processLang] at h
    by_cases h1 : fs.access (audioDir lang) (mp3Name n) = true
    · simp only [h1, if_true, Option.some.injEq, Prod.mk.injEq] at h
      obtain ⟨rfl, -, -⟩ := h
      exact h1
    · rw [if_neg h1] at h
      by_cases h2 : fs.access (audioDir lang) (wavName n) = true
      · simp only [h2, if_true, Option.some.injEq, Prod.mk.injEq] at h
        obtain ⟨rfl, -, -⟩ := h
        rw [FS.access_unlink]
        simp [mp3Name_ne_wavName, FS.access_writeFile]
      · rw [if_neg h2] at h
        rcases hw : withRetryRun att pos with ⟨b, p2, c2⟩
        rw [hw] at h
        cases b with
        | true =>
          simp only [saveAudioFile, ttsAudio_not_small, if_false,
            Option.some.injEq, Prod.mk.injEq] at h
          obtain ⟨rfl, -, -⟩ := h
          rw [FS.access_unlink]
          simp [mp3Name_ne_wavName, FS.access_writeFile]
        | false =>
          simp only [] at h
          rw [Option.map_eq_some'] at h
          obtain ⟨⟨fsr, posr, cr⟩, hr, he⟩ := h
          obtain ⟨rfl, -, -⟩ : fsr = fs' ∧ posr = pos' ∧ cr + c2 = c := by
            simpa using he
          exact ih _ _ _ _ _ hr

/-- The per-language loop never removes an already-present MP3 output of
any (language, index) pair: its only unlinks target `.wav` names. -/
theorem processLang_preserves_mp3 (att : Nat → Bool) (lang : String) (n : Nat)
    (text : String) (d : String) (m : Nat) :
    ∀ (fuel : Nat) (fs : FS) (pos : Nat) (fs' : FS) (pos' c : Nat),
      processLang att lang n text fuel fs pos = some (fs', pos', c) →
      fs.access d (mp3Name m) = true →
      fs'.access d (mp3Name m) = true := by
  intro fuel
  induction fuel with
  | zero =>
    intro fs pos fs' pos' c h
    simp [processLang] at h
  | succ fuel ih =>
    intro fs pos fs' pos' c h hpre
    rw [processLang] at h
    by_cases h1 : fs.access (audioDir lang) (mp3Name n) = true
    · simp only [h1, if_true, Option.some.injEq, Prod.mk.injEq] at h
      obtain ⟨rfl, -, -⟩ := h
      exact hpre
    · rw [if_neg h1] at h
      by_cases h2 : fs.access (audioDir lang) (wavName n) = true
      · simp only [h2, if_true, Option.some.injEq, Prod.mk.injEq] at h
        obtain ⟨rfl, -, -⟩ := h
        rw [FS.access_unlink]
        simp only [mp3Name_ne_wavName m n, and_false, if_false]
        rw [FS.access_writeFile]
        split
        · rfl
        · exact hpre
      · rw [if_neg h2] at h
        rcases hw : withRetryRun att pos with ⟨b, p2, c2⟩
        rw [hw] at h
        cases b with
        | true =>
          simp only [saveAudioFile, ttsAudio_not_small, if_false,
            Option.some.injEq, Prod.mk.injEq] at h
          obtain ⟨rfl, -, -⟩ := h
          rw [FS.access_unlink]
          simp only [mp3Name_ne_wavName m n, and_false, if_false]
          rw [FS.access_writeFile]
          split
          · rfl
          · rw [FS.access_writeFile]
            split
            · exfalso
              rename_i hk
              exact mp3Name_ne_wavName m n hk.2
            · exact hpre
        | false =>
          simp only [] at h
          rw [Option.map_eq_some'] at h
          obtain ⟨⟨fsr, posr, cr⟩, hr, he⟩ := h
          obtain ⟨rfl, -, -⟩ : fsr = fs' ∧ posr = pos' ∧ cr + c2 = c := by
            simpa using he
          exact ih _ _ _ _ _ hr hpre

/-- The sequential multi-language loop also preserves existing MP3 outputs. -/
theorem processLangs_preserves_mp3 (att : Nat → Bool) (n : Nat)
    (texts : String → String) (fuel : Nat) (d : String) (m : Nat) :
    ∀ (ls : List String) (fs : FS) (pos : Nat) (out : FS × Nat × Nat),
      processLangs att n texts fuel ls fs pos = some out →
      fs.access d (mp3Name m) = true →
      out.1.access d (mp3Name m) = true := by
  intro ls
  induction ls with
  | nil =>
    intro fs pos out h hpre
    simp only [processLangs, Option.some.injEq] at h
    rw [← h]
    exact hpre
  | cons lang rest ih =>
    intro fs pos out h hpre
    rw [processLangs] at h
    cases e : processLang att lang n (texts lang) fuel fs pos with
    | none => rw [e] at h; simp at h
    | some r1 =>
      obtain ⟨fs1, p1, c1⟩ := r1
      rw [e] at h
      simp only [Option.map_eq_some'] at h
      obtain ⟨r, hr, he⟩ := h
      have h1 : fs1.access d (mp3Name m) = true :=
        processLang_preserves_mp3 att lang n (texts lang) d m fuel fs pos fs1 p1 c1 e hpre
      have h2 : r.1.access d (mp3Name m) = true := ih fs1 p1 r hr h1
      rw [← he]
      exact h2

/-- A terminating run of the sequential multi-language loop leaves the MP3
output of every processed language on disk. -/
theorem processLangs_mp3 (att : Nat → Bool) (n : Nat)
    (texts : String → String) (fuel : Nat) :
    ∀ (ls : List String) (fs : FS) (pos : Nat) (out : FS × Nat × Nat),
      processLangs att n texts fuel ls fs pos = some out →
      ∀ lang ∈ ls, out.1.access (audioDir lang) (mp3Name n) = true := by
  intro ls
  induction ls with
  | nil =>
    intro fs pos out h lang hmem
    simp at hmem
  | cons l rest ih =>
    intro fs pos out h lang hmem
    rw [processLangs] at h
    cases e : processLang att l n (texts l) fuel fs pos with
    | none => rw [e] at h; simp at h
    | some r1 =>
      obtain ⟨fs1, p1, c1⟩ := r1
      rw [e] at h
      simp only [Option.map_eq_some'] at h
      obtain ⟨r, hr, he⟩ := h
      rcases List.mem_cons.mp hmem with rfl | hmem2
      · have h1 : fs1.access (audioDir lang) (mp3Name n) = true :=
          processLang_mp3 att lang n (texts lang) fuel fs pos fs1 p1 c1 e
        have h2 : r.1.access (audioDir lang) (mp3Name n) = true :=
          processLangs_preserves_mp3 att n texts fuel (audioDir lang) n rest fs1 p1 r hr h1
        rw [← he]
        exact h2
      · have h2 := ih fs1 p1 r hr lang hmem2
        rw [← he]
        exact h2

/-- When every language's translation file exists, the translation-reading
prologue of `processFragment` succeeds. -/
theorem readTranslations_of_exist (fs : FS) (n : Nat)
    (h : translationsExist fs n = true) :
    ∃ t, readTranslations fs n = some t := by
  simp only [translationsExist, languages, List.all_cons, List.all_nil,
    Bool.and_true, Bool.and_eq_true, FS.access, Option.isSome_iff_exists] at h
  obtain ⟨⟨c1, e1⟩, ⟨c2, e2⟩, ⟨c3, e3⟩⟩ := h
  have hs : (readTranslations fs n).isSome = true := by
    simp [readTranslations, languages, FS.fileAt, List.mapM, List.mapM.loop,
      e1, e2, e3]
  exact Option.isSome_iff_exists.mp hs

/-- Whenever some later attempt of the TTS oracle succeeds, the
per-language retry loop terminates for some fuel: each failing pass of the
loop consumes exactly the three attempts of one `withRetry` window, so the
window containing the successful attempt is eventually reached. -/
theorem processLang_succeeds (att : Nat → Bool) (lang : String) (n : Nat)
    (text : String) :
    ∀ (d : Nat) (pos : Nat) (fs : FS), att (pos + d) = true →
      ∃ fuel, (processLang att lang n text fuel fs pos).isSome = true := by
  intro d
  induction d using Nat.strong_induction_on with
  | _ d ih =>
    intro pos fs hatt
    by_cases h1 : fs.access (audioDir lang) (mp3Name n) = true
    · refine ⟨1, ?_⟩
      rw [processLang, if_pos h1]
      rfl
    · by_cases h2 : fs.access (audioDir lang) (wavName n) = true
      · refine ⟨1, ?_⟩
        rw [processLang, if_neg h1, if_pos h2]
        rfl
      · by_cases ha : att pos = true
        · refine ⟨1, ?_⟩
          rw [processLang, if_neg h1, if_neg h2]
          simp [withRetryRun, ha, saveAudioFile, ttsAudio_not_small]
        · by_cases hb : att (pos + 1) = true
          · refine ⟨1, ?_⟩
            rw [processLang, if_neg h1, if_neg h2]
            simp [withRetryRun, ha, hb, saveAudioFile, ttsAudio_not_small]
          · by_cases hc : att (pos + 2) = true
            · refine ⟨1, ?_⟩
              rw [processLang, if_neg h1, if_neg h2]
              simp [withRetryRun, ha, hb, hc, saveAudioFile, ttsAudio_not_small]
            · have hd3 : 3 ≤ d := by
                rcases Nat.lt_or_ge d 3 with hlt | hge
                · interval_cases d <;> simp_all
                · exact hge
              have hatt' : att ((pos + 3) + (d - 3)) = true := by
                have he : (pos + 3) + (d - 3) = pos + d := by omega
                rw [he]
                exact hatt
              obtain ⟨fuel0, h0⟩ := ih (d - 3) (by omega) (pos + 3) fs hatt'
              refine ⟨fuel0 + 1, ?_⟩
              rw [processLang, if_neg h1, if_neg h2]
              simp only [withRetryRun, ha, hb, hc, if_false, Bool.false_eq_true]
              obtain ⟨out0, e0⟩ := Option.isSome_iff_exists.mp h0
              rw [e0]
              rfl

/-! ## Claim theorems -/

/-- Claim C1: one iteration of the Sync Coordinator loop advances
`currentIndex` by at most one; it advances only when the translation
artifact for the current index existed for every configured language and
the post-state holds the completed synthesis output (the MP3) for every
configured language at that index; when any language's translation is
missing, the iteration sleeps and rechecks, leaving the filesystem and the
index unchanged and beginning processing of no fragment; and every
fragment whose processing is begun during the iteration is the current
index itself, so index `N + 1` is never started before index `N` is
complete. -/
theorem sync_coordinator_no_advance_without_coverage
    (att : Nat → Bool) (fuel : Nat) (fs : FS) (idx pos : Nat)
    (fs' : FS) (idx' pos' : Nat) (log : List Nat)
    (h : syncStep att fuel fs idx pos = some (fs', idx', pos', log)) :
    (idx' = idx ∨ idx' = idx + 1) ∧
    (idx' = idx + 1 → translationsExist fs idx = true ∧
      ∀ lang ∈ languages, fs'.access (audioDir lang) (mp3Name idx) = true) ∧
    (translationsExist fs idx = false → fs' = fs ∧ idx' = idx ∧ log = []) ∧
    (∀ i ∈ log, i = idx) := by
  rw [syncStep, hasTranslations_eq] at h
  by_cases ht : translationsExist fs idx = true
  · rw [if_pos ht] at h
    obtain ⟨texts, htx⟩ := readTranslations_of_exist fs idx ht
    rw [processFragment, htx] at h
    dsimp only at h
    cases e : processLangs att idx (fun lang => ((texts.lookup lang).getD ""))
        fuel languages fs pos with
    | none =>
      rw [e] at h
      simp at h
    | some r =>
      obtain ⟨fs1, p1, c1⟩ := r
      rw [e] at h
      simp only [Option.some.injEq, Prod.mk.injEq] at h
      obtain ⟨rfl, e2, e3, rfl⟩ := h
      refine ⟨Or.inr e2.symm, fun _ => ⟨ht, ?_⟩,
        fun hf => absurd ht (by simp [hf]), ?_⟩
      · exact processLangs_mp3 att idx _ fuel languages fs pos (fs1, p1, c1) e
      · intro i hi
        simpa using hi
  · rw [if_neg ht] at h
    simp only [Option.some.injEq, Prod.mk.injEq] at h
    obtain ⟨rfl, e2, e3, rfl⟩ := h
    refine ⟨Or.inl e2.symm, fun hadv => absurd (e2.trans hadv) (by omega),
      ?_, ?_⟩
    · intro _
      exact ⟨rfl, e2.symm, rfl⟩
    · intro i hi
      simp at hi

/-- Witness for C1: on the empty filesystem no translation exists for
fragment 0, so the coordinator step waits without advancing. -/
theorem sync_coordinator_no_advance_without_coverage_witness :
    syncStep (fun _ => true) 1 emptyFS 0 0 = some (emptyFS, 0, 0, []) ∧
    (0 = 0 ∨ 0 = 0 + 1) := by
  refine ⟨rfl, ?_⟩
  exact (sync_coordinator_no_advance_without_coverage
    (fun _ => true) 1 emptyFS 0 0 emptyFS 0 0 [] rfl).1

/-- Claim C3: if the underlying TTS call succeeds on some attempt after any
finite number of consecutive failures, the per-language Stage Processor
loop of `processFragment` eventually (for some fuel) terminates with the
output MP3 for the fragment on disk; and it never marks the fragment as
permanently failed — every terminating outcome is a success whose output
file exists, the only alternative being to keep retrying (`none`). -/
theorem stage_processor_retry_forever_convergence
    (att : Nat → Bool) (lang : String) (n : Nat) (text : String)
    (fs : FS) (pos d : Nat) (hatt : att (pos + d) = true) :
    (∃ fuel fs' pos' c,
       processLang att lang n text fuel fs pos = some (fs', pos', c) ∧
       fs'.access (audioDir lang) (mp3Name n) = true) ∧
    (∀ fuel fs' pos' c,
       processLang att lang n text fuel fs pos = some (fs', pos', c) →
       fs'.access (audioDir lang) (mp3Name n) = true) := by
  constructor
  · obtain ⟨fuel, hs⟩ := processLang_succeeds att lang n text d pos fs hatt
    obtain ⟨⟨fs', pos', c⟩, he⟩ := Option.isSome_iff_exists.mp hs
    exact ⟨fuel, fs', pos', c, he,
      processLang_mp3 att lang n text fuel fs pos fs' pos' c he⟩
  · intro fuel fs' pos' c he
    exact processLang_mp3 att lang n text fuel fs pos fs' pos' c he

/-- Witness for C3: with an always-succeeding oracle on the empty
filesystem, the processor produces `FinalTranslatedAudio/Hindi/fragment-0.mp3`. -/
theorem stage_processor_retry_forever_convergence_witness :
    (fun (_ : Nat) => true) (0 + 0) = true ∧
    (∃ fuel fs' pos' c,
       processLang (fun _ => true) "Hindi" 0 "text" fuel emptyFS 0 =
         some (fs', pos', c) ∧
       fs'.access (audioDir "Hindi") (mp3Name 0) = true) :=
  ⟨rfl, (stage_processor_retry_forever_convergence
    (fun _ => true) "Hindi" 0 "text" emptyFS 0 0 rfl).1⟩

/-- Claim C4: when the output MP3 for a (fragment, language) pair already
exists, running the Stage Processor body for that pair again returns
immediately: the filesystem is returned unchanged (so the existing output
file is byte-identical), zero billable TTS API calls are made, and the
attempt oracle is not consulted (`pos` is unchanged) — the existence check
runs before the expensive operation. -/
theorem stage_processor_idempotent_skip
    (att : Nat → Bool) (lang : String) (n : Nat) (text : String)
    (fuel : Nat) (fs : FS) (pos : Nat)
    (hex : fs.access (audioDir lang) (mp3Name n) = true) :
    processLang att lang n text (fuel + 1) fs pos = some (fs, pos, 0) := by
  rw [processLang, if_pos hex]

/-- Witness for C4: a filesystem already holding
`FinalTranslatedAudio/Hindi/fragment-0.mp3` is returned untouched with no
API call. -/
theorem stage_processor_idempotent_skip_witness :
    (emptyFS.writeFile (audioDir "Hindi") (mp3Name 0) "d").access
      (audioDir "Hindi") (mp3Name 0) = true ∧
    processLang (fun _ => false) "Hindi" 0 "text" 1
        (emptyFS.writeFile (audioDir "Hindi") (mp3Name 0) "d") 5 =
      some (emptyFS.writeFile (audioDir "Hindi") (mp3Name 0) "d", 5, 0) :=
  ⟨rfl, stage_processor_idempotent_skip (fun _ => false) "Hindi" 0 "text" 0
    (emptyFS.writeFile (audioDir "Hindi") (mp3Name 0) "d") 5 rfl⟩

/-- Claim C2 (at the failing input): the result-saving write of the
transcription stage goes directly to the final fragment name
`ExtractedText/fragment-0.json` (`writesVia` true), using neither the
write-temp-then-rename discipline (`tempThenRename` false) nor a size
verification of the written file (`sizeVerified` false); the synthesis-stage
`saveAudioFile`, by contrast, does verify the written size. -/
theorem transcription_write_discipline_violation :
    writesVia (transcribeSaveOps "ExtractedText" 0 "results")
      "ExtractedText" (jsonName 0) = true ∧
    tempThenRename (transcribeSaveOps "ExtractedText" 0 "results")
      "ExtractedText" (jsonName 0) = false ∧
    sizeVerified (transcribeSaveOps "ExtractedText" 0 "results")
      "ExtractedText" (jsonName 0) = false ∧
    sizeVerified (saveAudioFileOps (audioDir "Hindi") (wavName 0) (ttsAudio "t"))
      (audioDir "Hindi") (wavName 0) = true := by
  refine ⟨by decide, by decide, by decide, ?_⟩
  decide

/-! ### Claim C5 -/

/-- Membership in the key set after one `Map.set`. -/
theorem mem_fragKeys_mapSet (m : List (Nat × String)) (k : Nat) (v : String)
    (n : Nat) :
    n ∈ fragKeys (mapSet m k v) ↔ n ∈ fragKeys m ∨ n = k := by
  unfold mapSet
  by_cases hk : m.any (fun e => e.1 == k) = true
  · rw [if_pos hk]
    have hkeys : fragKeys (m.map (fun e => if e.1 == k then (k, v) else e)) =
        fragKeys m := by
      unfold fragKeys
      rw [List.map_map]
      apply List.map_congr_left
      intro e _
      by_cases he : e.1 == k
      · simp only [Function.comp_apply, he, if_true]
        exact (eq_of_beq he).symm
      · simp only [Function.comp_apply, he, if_false]
        rfl
    rw [hkeys]
    constructor
    · exact Or.inl
    · rintro (hm | rfl)
      · exact hm
      · obtain ⟨e, hem, hek⟩ := List.any_eq_true.mp hk
        have : e.1 = n := eq_of_beq hek
        exact this ▸ List.mem_map_of_mem (fun e => e.1) hem
  · rw [if_neg hk]
    unfold fragKeys
    rw [List.map_append]
    simp

/-- The discovery fold collects exactly the parsed indices. -/
theorem mem_fragKeys_fold (files : List String) :
    ∀ (m : List (Nat × String)) (n : Nat),
      n ∈ fragKeys (files.foldl
        (fun m file =>
          match parseFragment ".json" file with
          | some k => mapSet m k file
          | none => m) m) ↔
      n ∈ fragKeys m ∨ ∃ f ∈ files, parseFragment ".json" f = some n := by
  induction files with
  | nil =>
    intro m n
    simp
  | cons f t ih =>
    intro m n
    rw [List.foldl_cons, ih]
    cases hp : parseFragment ".json" f with
    | none =>
      simp [hp]
    | some k =>
      simp only [hp, mem_fragKeys_mapSet, List.mem_cons]
      constructor
      · rintro ((hm | rfl) | ht)
        · exact Or.inl hm
        · exact Or.inr ⟨f, Or.inl rfl, hp⟩
        · obtain ⟨g, hg, hgp⟩ := ht
          exact Or.inr ⟨g, Or.inr hg, hgp⟩
      · rintro (hm | ⟨g, (rfl | hg), hgp⟩)
        · exact Or.inl (Or.inl hm)
        · rw [hp] at hgp
          exact Or.inl (Or.inr (Option.some.inj hgp).symm)
        · exact Or.inr ⟨g, hg, hgp⟩

/-- Claim C5 (amended): `getAllTranslationFragments` discovers exactly the
set of indices of names matching `fragment-(\d+).json$`, ignoring every
non-matching name without error — in particular `fragment-0.json` through
`fragment-9.json` plus a stray `fragment-10.tmp` yield exactly
`{0, …, 9}`; and the extraction-status `.wav` listing does ignore
non-`.wav` strays such as `fragment-10.tmp` (its intolerance is limited to
non-matching `.wav` names, see the counterexample). -/
theorem fragment_discovery_exact_set :
    (∀ (files : List String) (n : Nat),
       n ∈ fragKeys (getAllTranslationFragments files) ↔
       ∃ f ∈ files, parseFragment ".json" f = some n) ∧
    fragKeys (getAllTranslationFragments
      ["fragment-0.json", "fragment-1.json", "fragment-2.json",
       "fragment-3.json", "fragment-4.json", "fragment-5.json",
       "fragment-6.json", "fragment-7.json", "fragment-8.json",
       "fragment-9.json", "fragment-10.tmp"]) =
      [0, 1, 2, 3, 4, 5, 6, 7, 8, 9] ∧
    extractionWavListing
      ["fragment-0.wav", "fragment-1.wav", "fragment-10.tmp"] =
      some ["fragment-0.wav", "fragment-1.wav"] := by
  refine ⟨?_, by decide, by decide⟩
  intro files n
  rw [getAllTranslationFragments, mem_fragKeys_fold]
  simp [fragKeys]

/-- Counterexample to C5 as stated: on the listing
`["fragment-0.wav", "notes.wav"]` the extraction-status endpoint's
filter-and-sort raises a TypeError inside the comparator (caught upstream,
yielding the `not_started` fallback) instead of tolerantly yielding the
index set `{0}`, even though `fragment-0.wav` matches the pattern and
`notes.wav` is a `.wav` file that merely fails to match. -/
theorem extraction_listing_error_counterexample :
    extractionWavListing ["fragment-0.wav", "notes.wav"] = none ∧
    parseFragment ".wav" "fragment-0.wav" = some 0 ∧
    strEndsWith "notes.wav" ".wav" = true := by
  exact ⟨by decide, by decide, by decide⟩

/-- Claim C6: the fragment file-serving endpoint returns 404 when the file
is absent; 200 with the full body and no `Content-Range` when no `Range`
header is given; and for a satisfiable `Range: bytes=S-E` on an `L`-byte
file it returns 206 with header `Content-Range: bytes S-E/L` and exactly
`E - S + 1` body bytes. -/
theorem byte_range_serving_semantics :
    (∀ range, serveAudio none range = ⟨404, none, 0, 0⟩) ∧
    (∀ st : StatInfo, st.isFile = true → 0 < st.size →
       serveAudio (some st) none = ⟨200, none, (st.size : Int), st.size⟩) ∧
    (∀ (st : StatInfo) (s e : Int), st.isFile = true → 0 ≤ s → s ≤ e →
       e < (st.size : Int) →
       serveAudio (some st) (some (s, some e)) =
         ⟨206,
          some ("bytes " ++ toString s ++ "-" ++ toString e ++ "/" ++
            toString st.size),
          e - s + 1, (e - s + 1).toNat⟩) := by
  refine ⟨fun range => rfl, ?_, ?_⟩
  · intro st hf hs
    simp only [serveAudio]
    have : (!st.isFile || st.size == 0) = false := by
      simp [hf]
      omega
    rw [this]
    simp
  · intro st s e hf h0 hse hes
    simp only [serveAudio]
    have hc : (!st.isFile || st.size == 0) = false := by
      simp [hf]
      omega
    rw [hc]
    simp only [Bool.false_eq_true, if_false]
    have hmin : min e ((st.size : Int) - 1) = e := by
      apply min_eq_left
      omega
    rw [hmin]

/-- Witness for C6: `Range: bytes=100-199` on a 1000-byte file gives 206,
`Content-Range: bytes 100-199/1000` and a 100-byte body. -/
theorem byte_range_serving_semantics_witness :
    serveAudio (some ⟨true, 1000⟩) (some (100, some 199)) =
      ⟨206, some "bytes 100-199/1000", 100, 100⟩ := by
  have h := byte_range_serving_semantics.2.2 ⟨true, 1000⟩ 100 199 rfl
    (by decide) (by decide) (by decide)
  rw [h]
  decide

/-- Claim C7: the status endpoints return a best-effort snapshot and never
an error response: a missing extraction directory yields the `not_started`
snapshot, the extraction-status response always carries HTTP 200 (even the
internal listing TypeError is caught and mapped to `not_started`), and the
translation status of a source with no directories is the all-zero
snapshot with no error field. -/
theorem status_endpoints_best_effort :
    (∀ (fin pre : Option (List String)) (sj : Option (String × Nat)),
       fin = none ∨ pre = none →
       extractionStatus fin pre sj = notStartedResponse) ∧
    (∀ (fin pre : Option (List String)) (sj : Option (String × Nat)),
       (extractionStatus fin pre sj).httpStatus = 200) ∧
    getTranslationStatus none (fun _ => none) = ⟨0, 0, 0, false, none⟩ ∧
    (∀ (trans : Option (List String)) (langDir : String → Option (List String)),
       (getTranslationStatus trans langDir).errorMsg = none) := by
  refine ⟨?_, ?_, by decide, fun trans langDir => rfl⟩
  · intro fin pre sj h
    rcases h with rfl | rfl
    · rfl
    · cases fin <;> rfl
  · intro fin pre sj
    cases fin with
    | none => rfl
    | some finalFiles =>
      cases pre with
      | none => rfl
      | some preFiles =>
        simp only [extractionStatus]
        split
        · cases sj with
          | none =>
            simp only [generatedExtraction]
            cases extractionWavListing finalFiles <;> rfl
          | some st => rfl
        · simp only [generatedExtraction]
          cases extractionWavListing finalFiles <;> rfl

/-- Witness for C7: both extraction directories missing yields the
`not_started` snapshot. -/
theorem status_endpoints_best_effort_witness :
    extractionStatus none none none = notStartedResponse :=
  status_endpoints_best_effort.1 none none none (Or.inl rfl)

/-- Claim C8: both status reporters compute, per language,
`filesCount` as the count of that language's completed fragment files in a
fresh directory listing and `progress` as
`doneCount / referenceCount * 100` where the reference is the
immediately-upstream stage's completed-fragment count (English translations
for the synthesis reporter, transcriptions for the translation reporter),
with progress 0 when the reference count is 0. -/
theorem status_reporter_progress_formula :
    (∀ (etd : Option (List String)) (adl : String → Option (List String))
       (lang : String),
       (audioLangStatus etd adl lang).filesCount = doneAudioCount adl lang ∧
       (audioLangStatus etd adl lang).progress =
         (if audioReferenceCount etd = 0 then 0
          else (doneAudioCount adl lang : ℚ) / audioReferenceCount etd * 100)) ∧
    (∀ (td : Option (List String)) (ld : String → Option (List String))
       (lang : String),
       (translationLangStatus td ld lang).filesCount =
         doneTranslationCount ld lang ∧
       (translationLangStatus td ld lang).progress =
         (if translationReferenceCount td = 0 then 0
          else (doneTranslationCount ld lang : ℚ) /
            translationReferenceCount td * 100)) :=
  ⟨fun _ _ _ => ⟨rfl, rfl⟩, fun _ _ _ => ⟨rfl, rfl⟩⟩

/-! ### Claim C9 -/

/-- Registry invariant: from any state where each video has at most one
running loop, and a running loop implies registration, any sequence of
start requests keeps at most one running loop per video. -/
theorem start_invariant :
    ∀ (reqs : List String) (s : ServerState),
      (∀ v, s.running v ≤ 1 ∧ (1 ≤ s.running v → s.registered.contains v = true)) →
      ∀ v, (reqs.foldl startAudioSyncManager s).running v ≤ 1 := by
  intro reqs
  induction reqs with
  | nil =>
    intro s hs v
    exact (hs v).1
  | cons r t ih =>
    intro s hs v
    rw [List.foldl_cons]
    apply ih
    intro w
    unfold startAudioSyncManager
    by_cases hr : s.registered.contains r = true
    · rw [if_pos hr]
      exact hs w
    · rw [if_neg hr]
      by_cases hw : w = r
      · subst hw
        have h0 : s.running w = 0 := by
          rcases Nat.eq_zero_or_pos (s.running w) with h | h
          · exact h
          · exact absurd ((hs w).2 h) hr
        constructor
        · simp [h0]
        · intro _
          simp [List.contains_cons]
      · constructor
        · simp only [hw, if_false]
          exact (hs w).1
        · intro h1
          simp only [hw, if_false] at h1
          have hm := (hs w).2 h1
          simp only [List.contains_cons, Bool.or_eq_true]
          exact Or.inr hm

/-- Claim C9: after any sequence of start requests from the initial state,
at most one Sync Coordinator processing loop runs per source; and a start
request for an already-registered source is a no-op (it changes nothing
and starts no second loop). -/
theorem sync_manager_single_instance :
    (∀ (reqs : List String) (vid : String),
       ((reqs.foldl startAudioSyncManager initialServerState).running vid) ≤ 1) ∧
    (∀ (s : ServerState) (vid : String),
       s.registered.contains vid = true → startAudioSyncManager s vid = s) := by
  constructor
  · intro reqs vid
    apply start_invariant
    intro v
    exact ⟨by simp [initialServerState], by simp [initialServerState]⟩
  · intro s vid h
    rw [startAudioSyncManager, if_pos h]

/-- Witness for C9: a second start request for the same video is a no-op. -/
theorem sync_manager_single_instance_witness :
    (startAudioSyncManager initialServerState "vid0").registered.contains
      "vid0" = true ∧
    startAudioSyncManager (startAudioSyncManager initialServerState "vid0")
      "vid0" = startAudioSyncManager initialServerState "vid0" := by
  refine ⟨by decide, ?_⟩
  exact sync_manager_single_instance.2
    (startAudioSyncManager initialServerState "vid0") "vid0" (by decide)

/-- Claim C10: a request naming an existing path that is not a regular file
or whose size is zero bytes is answered 404 and no body is streamed, even
though the file exists on disk. -/
theorem zero_byte_file_not_served (st : StatInfo)
    (range : Option (Int × Option Int))
    (h : st.isFile = false ∨ st.size = 0) :
    serveAudio (some st) range = ⟨404, none, 0, 0⟩ := by
  simp only [serveAudio]
  have : (!st.isFile || st.size == 0) = true := by
    rcases h with h | h <;> simp [h]
  rw [this]
  simp

/-- Witness for C10: an existing zero-byte regular file is answered 404. -/
theorem zero_byte_file_not_served_witness :
    serveAudio (some ⟨true, 0⟩) none = ⟨404, none, 0, 0⟩ :=
  zero_byte_file_not_served ⟨true, 0⟩ none (Or.inr rfl)

end LiveTrans
